import Mathlib

/-!
Verification development for the Spotify export script `get_all_songs.py`.
The Python functions are shallowly embedded as Lean definitions over a JSON
value type; Python exceptions are modelled with `Except`, and the per-record
log output with an explicit list of log events.
-/

/-- JSON-like Python value: None, strings, integers, booleans, lists and
dicts (dicts as association lists in insertion order, keys unique in all
inputs the program builds). -/
inductive JVal : Type where
  | null : JVal
  | str (s : String) : JVal
  | num (n : Int) : JVal
  | bool (b : Bool) : JVal
  | arr (xs : List JVal) : JVal
  | obj (kvs : List (String × JVal)) : JVal

/-- Python exception kinds raised by the embedded code paths: subscripting a
dict without the key, calling `.get` on a non-dict, and iterating or joining
values of the wrong type. -/
inductive PyErr : Type where
  | keyError (k : String) : PyErr
  | attributeError : PyErr
  | typeError : PyErr
deriving DecidableEq

/-- Log events emitted through the `logging` module by the embedded code,
carrying the same data the Python format strings interpolate. -/
inductive LogMsg : Type where
  | infoProcessing (playlistName : String) : LogMsg
  | errInvalidTrack (track : JVal) : LogMsg
  | warnPlaylistDataNone (playlistName : String) : LogMsg
  | warnPlaylistInfoNone (playlistName : String) : LogMsg
  | warnTracksNone (playlistName : String) : LogMsg
  | warnNoneTrack (playlistName : String) : LogMsg
  | errFormatting (playlistName : String) (track : JVal) : LogMsg

/-- Model of the Python expression `o.get(k, d)`: on a dict it returns the
stored value (even an explicit None) when the key is present and the default
otherwise; on any non-dict value `.get` does not exist, raising
AttributeError. -/
def pyGet (o : JVal) (k : String) (d : JVal) : Except PyErr JVal :=
  match o with
  | .obj kvs => .ok ((kvs.lookup k).getD d)
  | _ => .error .attributeError

/-- Model of the Python expression `o[k]` on a dict: KeyError when absent,
TypeError when `o` is not subscriptable by a string key. -/
def pySubscript (o : JVal) (k : String) : Except PyErr JVal :=
  match o with
  | .obj kvs =>
    match kvs.lookup k with
    | some v => .ok v
    | none => .error (.keyError k)
  | _ => .error .typeError

/-- Pure lookup with a default, used to state what the dict reads return on
well-shaped data. -/
def lookupD (kvs : List (String × JVal)) (k : String) (d : JVal) : JVal :=
  (kvs.lookup k).getD d

/-- One page of a paginated Spotify API response: the `items` field and the
`next` cursor (None on the final page). The remote endpoint is modelled as
the sequence of pages it would serve; `sp.next` moves to the next element. -/
structure Page (α : Type) : Type where
  items : List α
  next : Option String

/-- Shared pagination loop of `get_saved_tracks` (lines 137-145) and the
non-sentinel branch of `get_playlist_tracks` (lines 162-170):
`tracks.extend(results[\x27items\x27])`, then follow `results[\x27next\x27]`
via `sp.next` while it is non-null, else break. -/
def fetchAll {α : Type} : List (Page α) → List α
  | [] => []
  | p :: rest =>
    p.items ++ (match p.next with
      | some _ => fetchAll rest
      | none => [])

/-- Well-formed page sequence as in the claims: every page except the last
carries a non-null `next` cursor and the last page carries a null one. -/
def pagesWellFormed {α : Type} : List (Page α) → Bool
  | [] => true
  | [p] => p.next.isNone
  | p :: q :: rest => p.next.isSome && pagesWellFormed (q :: rest)

/-- Embedding of `get_saved_tracks(sp)` (lines 128-145); the authenticated
client is replaced by the page sequence the saved-tracks endpoint serves. -/
def get_saved_tracks (savedPages : List (Page JVal)) : List JVal :=
  fetchAll savedPages

/-- Embedding of `get_playlist_tracks(sp, playlist_id)` (lines 147-170).
The client is replaced by the saved-tracks page sequence and the function
from playlist id to the page sequence of the playlist-tracks endpoint.
The `lru_cache` memoization only avoids repeated network calls and does not
change the returned value, so it is not part of the value-level model. -/
def get_playlist_tracks (savedPages : List (Page JVal))
    (playlistPages : String → List (Page JVal)) (playlist_id : String) : List JVal :=
  if playlist_id = "liked_songs" then get_saved_tracks savedPages
  else fetchAll (playlistPages playlist_id)

/-- Playlist record as consumed by the script: the fields the code reads
(`id`, `name`, `tracks.total`) plus the remaining raw dict entries, which
the code never inspects but carries into the export. -/
structure SPlaylist : Type where
  id : String
  name : String
  tracksTotal : Int
  extra : List (String × JVal)

/-- Raw dict view of a playlist record, used when `main` stores the playlist
object as `playlist_info` in the export input. -/
def SPlaylist.toJVal (p : SPlaylist) : JVal :=
  .obj ([("id", .str p.id), ("name", .str p.name),
         ("tracks", .obj [("total", .num p.tracksTotal)])] ++ p.extra)

/-- Pagination loop of `get_user_playlists_and_saved_tracks` (lines
100-109): pages of playlists are walked with the same cursor-following loop,
but each page contributes only its playlists with `tracks.total > 0`. -/
def fetchPlaylistsLoop : List (Page SPlaylist) → List SPlaylist
  | [] => []
  | p :: rest =>
    p.items.filter (fun pl => decide (0 < pl.tracksTotal)) ++
      (match p.next with
        | some _ => fetchPlaylistsLoop rest
        | none => [])

/-- Synthetic Liked-Songs pseudo-playlist constructed at lines 116-120. -/
def likedSongsPlaylist (n : Nat) : SPlaylist :=
  ⟨"liked_songs", "Liked Songs", (n : Int), []⟩

/-- Lowercased character sequence of a name, the sort key produced by
`x[\x27name\x27].lower()`; characters are compared by code point exactly as
Python compares strings, and the builtin String order is this
lexicographic order on the underlying character lists. -/
def pyLower (s : String) : List Char :=
  s.data.map Char.toLower

/-- Case-insensitive name order used by `playlists.sort(key=lambda x:
x[\x27name\x27].lower())` at line 124. -/
def nameLE (a b : SPlaylist) : Prop :=
  pyLower a.name ≤ pyLower b.name

instance : DecidableRel nameLE := fun a b =>
  inferInstanceAs (Decidable (pyLower a.name ≤ pyLower b.name))

instance : IsTotal SPlaylist nameLE :=
  ⟨fun a b => le_total (pyLower a.name) (pyLower b.name)⟩

instance : IsTrans SPlaylist nameLE :=
  ⟨fun _ _ _ h h2 => le_trans h h2⟩

/-- Stable sort of the playlist list by lowercased name; Python list.sort is
a stable sort, modelled here by insertion sort (also stable). -/
def sortPlaylists (ps : List SPlaylist) : List SPlaylist :=
  ps.insertionSort nameLE

/-- Embedding of `get_user_playlists_and_saved_tracks(sp)` (lines 90-126):
walk the playlist pages keeping playlists with at least one track, fetch the
saved tracks, append the synthetic Liked-Songs playlist when any saved
tracks exist, and sort case-insensitively by name. -/
def get_user_playlists_and_saved_tracks (playlistPages : List (Page SPlaylist))
    (savedPages : List (Page JVal)) : List SPlaylist × List JVal :=
  let playlists := fetchPlaylistsLoop playlistPages
  let saved_tracks := get_saved_tracks savedPages
  let playlists :=
    if saved_tracks.isEmpty then playlists
    else playlists ++ [likedSongsPlaylist saved_tracks.length]
  (sortPlaylists playlists, saved_tracks)

/-- Embedding of `format_track_data(track)` (lines 172-196). A non-dict
input or a dict without the key `"track"` logs an error and yields the empty
record; otherwise each field is read with `.get` defaults in the evaluation
order of the Python dict literal, and any `.get` on a non-dict nested value
raises AttributeError (iterating a non-list `artists` value is modelled as
TypeError; in Python some such iterations raise AttributeError on the
element instead, but every one of them raises). -/
def format_track_data (track : JVal) : Except PyErr (JVal × List LogMsg) :=
  match track with
  | .obj kvs =>
    match kvs.lookup "track" with
    | none => .ok (.obj [], [.errInvalidTrack track])
    | some track_info =>
      match pyGet track_info "id" (.str "") with
      | .error e => .error e
      | .ok idv =>
        match pyGet track_info "name" (.str "") with
        | .error e => .error e
        | .ok namev =>
          match pyGet track_info "artists" (.arr []) with
          | .error e => .error e
          | .ok artistsRaw =>
            match artistsRaw with
            | .arr artists =>
              match artists.mapM (fun a => pyGet a "name" (.str "")) with
              | .error e => .error e
              | .ok artistNames =>
                match pyGet track_info "album" (.obj []) with
                | .error e => .error e
                | .ok albumObj =>
                  match pyGet albumObj "name" (.str "") with
                  | .error e => .error e
                  | .ok albumName =>
                    match pyGet track_info "duration_ms" (.num 0) with
                    | .error e => .error e
                    | .ok dur =>
                      match pyGet track "added_at" (.str "") with
                      | .error e => .error e
                      | .ok added =>
                        match pyGet track_info "uri" (.str "") with
                        | .error e => .error e
                        | .ok uriv =>
                          match pyGet track_info "external_urls" (.obj []) with
                          | .error e => .error e
                          | .ok extObj =>
                            match pyGet extObj "spotify" (.str "") with
                            | .error e => .error e
                            | .ok extUrl =>
                              .ok (.obj [("id", idv), ("name", namev),
                                ("artists", .arr artistNames),
                                ("album", albumName), ("duration_ms", dur),
                                ("added_at", added), ("uri", uriv),
                                ("external_url", extUrl)], [])
            | _ => .error .typeError
  | _ => .ok (.obj [], [.errInvalidTrack track])

mutual

/-- Python `repr` of a value, which `str` falls back to for lists and dicts
and which f-strings use for nested values; exact on the scalar values that
occur in well-shaped data. -/
def pyRepr : JVal → String
  | .null => "None"
  | .bool true => "True"
  | .bool false => "False"
  | .num n => toString n
  | .str s => "\x27" ++ s ++ "\x27"
  | .arr xs => "[" ++ String.intercalate ", " (pyReprList xs) ++ "]"
  | .obj kvs => "\x7b" ++ String.intercalate ", " (pyReprKVs kvs) ++ "\x7d"

/-- Renders every element of a list with `pyRepr`. -/
def pyReprList : List JVal → List String
  | [] => []
  | x :: xs => pyRepr x :: pyReprList xs

/-- Renders every key-value pair of a dict with `pyRepr`. -/
def pyReprKVs : List (String × JVal) → List String
  | [] => []
  | (k, v) :: xs => ("\x27" ++ k ++ "\x27: " ++ pyRepr v) :: pyReprKVs xs

end

/-- Python `str` of a value, as used by f-string interpolation: the string
itself for strings, else `repr`. -/
def pyStr : JVal → String
  | .str s => s
  | v => pyRepr v

/-- Model of `sep.join(v)`: requires a list whose elements are all strings,
raising TypeError otherwise (a non-list or a list with a non-string
element). -/
def pyJoin (sep : String) (v : JVal) : Except PyErr String :=
  match v with
  | .arr xs =>
    match xs.mapM (fun x => match x with
        | .str s => Except.ok s
        | _ => Except.error PyErr.typeError) with
    | .ok strs => .ok (String.intercalate sep strs)
    | .error e => .error e
  | _ => .error .typeError

/-- Minimal track rendering at lines 263-264: join the formatted artists
with a comma and build the display string from the formatted name. Raises
(KeyError or TypeError) when the formatted record is the empty record or
holds non-string artist names. -/
def mkMinimalTrack (full_track : JVal) : Except PyErr String :=
  match pySubscript full_track "artists" with
  | .error e => .error e
  | .ok arts =>
    match pyJoin ", " arts with
    | .error e => .error e
    | .ok artists_str =>
      match pySubscript full_track "name" with
      | .error e => .error e
      | .ok nm => .ok (pyStr nm ++ " - [" ++ artists_str ++ "]")

/-- Per-track loop of `save_playlists_to_json` (lines 254-268): None tracks
are skipped with a warning; the remaining work runs under try/except, so a
raise from `format_track_data` leaves both lists untouched, while a raise
while building the minimal string happens after the full record was already
appended. Returns the full track records, the minimal display strings, and
the log events in order. -/
def processTracks (playlistName : String) : List JVal → List JVal × List String × List LogMsg
  | [] => ([], [], [])
  | t :: ts =>
    match t with
    | .null =>
      let (fs, ms, lgs) := processTracks playlistName ts
      (fs, ms, .warnNoneTrack playlistName :: lgs)
    | _ =>
      match format_track_data t with
      | .error _ =>
        let (fs, ms, lgs) := processTracks playlistName ts
        (fs, ms, .errFormatting playlistName t :: lgs)
      | .ok (full_track, flog) =>
        match mkMinimalTrack full_track with
        | .ok m =>
          let (fs, ms, lgs) := processTracks playlistName ts
          (full_track :: fs, m :: ms, flog ++ lgs)
        | .error _ =>
          let (fs, ms, lgs) := processTracks playlistName ts
          (full_track :: fs, ms, flog ++ [.errFormatting playlistName t] ++ lgs)

/-- Per-entry body of the loop in `save_playlists_to_json` (lines 221-271)
for one `(playlist_name, playlist_data)` item: skip None data and None
`playlist_info` with warnings, read the full and minimal playlist headers
with `.get` defaults in source order, replace a None track list by the empty
list with a warning, and run the track loop. Returns None when the entry is
skipped, else the full and minimal playlist sub-documents. -/
def processEntry (playlist_name : String) (playlist_data : JVal) :
    Except PyErr (Option (JVal × JVal) × List LogMsg) :=
  match playlist_data with
  | .null => .ok (none, [.infoProcessing playlist_name, .warnPlaylistDataNone playlist_name])
  | _ =>
    match pyGet playlist_data "playlist_info" .null with
    | .error e => .error e
    | .ok playlist_info =>
      match playlist_info with
      | .null => .ok (none, [.infoProcessing playlist_name, .warnPlaylistInfoNone playlist_name])
      | _ =>
        match pyGet playlist_info "id" .null with
        | .error e => .error e
        | .ok idv =>
          match pyGet playlist_info "name" .null with
          | .error e => .error e
          | .ok namev =>
            match pyGet playlist_info "description" (.str "") with
            | .error e => .error e
            | .ok desc =>
              match pyGet playlist_info "owner" (.obj []) with
              | .error e => .error e
              | .ok ownerObj =>
                match pyGet ownerObj "display_name" (.str "You") with
                | .error e => .error e
                | .ok owner =>
                  match pyGet playlist_info "tracks" (.obj []) with
                  | .error e => .error e
                  | .ok tracksObj =>
                    match pyGet tracksObj "total" (.num 0) with
                    | .error e => .error e
                    | .ok total =>
                      match pyGet playlist_data "tracks" (.arr []) with
                      | .error e => .error e
                      | .ok tracksRaw =>
                        match tracksRaw with
                        | .null =>
                          let (fts, mts, tlogs) := processTracks playlist_name []
                          .ok (some (
                            .obj [("id", idv), ("name", namev), ("description", desc),
                                  ("owner", owner), ("tracks_count", total),
                                  ("tracks", .arr fts)],
                            .obj [("name", namev), ("tracks", .arr (mts.map .str))]),
                            .infoProcessing playlist_name :: .warnTracksNone playlist_name :: tlogs)
                        | .arr xs =>
                          let (fts, mts, tlogs) := processTracks playlist_name xs
                          .ok (some (
                            .obj [("id", idv), ("name", namev), ("description", desc),
                                  ("owner", owner), ("tracks_count", total),
                                  ("tracks", .arr fts)],
                            .obj [("name", namev), ("tracks", .arr (mts.map .str))]),
                            .infoProcessing playlist_name :: tlogs)
                        | _ => .error .typeError

/-- Loop of `save_playlists_to_json` over the input mapping items in order,
accumulating the full and minimal playlist sub-documents and the log
events; an uncaught raise in an entry aborts the whole export. -/
def exportLoop : List (String × JVal) → Except PyErr (List JVal × List JVal × List LogMsg)
  | [] => .ok ([], [], [])
  | (name, pd) :: rest =>
    match processEntry name pd with
    | .error e => .error e
    | .ok (res, lg) =>
      match exportLoop rest with
      | .error e => .error e
      | .ok (fps, mps, lgs) =>
        match res with
        | none => .ok (fps, mps, lg ++ lgs)
        | some (f, m) => .ok (f :: fps, m :: mps, lg ++ lgs)

/-- Embedding of `save_playlists_to_json(playlists_data)` (lines 198-285),
producing the contents of the two JSON documents instead of writing files.
The two `datetime.now().isoformat()` calls are the parameters `fullDate`
and `minimalDate`; the timestamped directory name is file-system glue
outside the value model. -/
def save_playlists_to_json (fullDate minimalDate : String)
    (playlists_data : List (String × JVal)) :
    Except PyErr (JVal × JVal × List LogMsg) :=
  match exportLoop playlists_data with
  | .error e => .error e
  | .ok (fps, mps, lgs) =>
    .ok (.obj [("export_date", .str fullDate), ("playlists", .arr fps)],
         .obj [("export_date", .str minimalDate), ("playlists", .arr mps)],
         lgs)

/-- Two hex digits for the low control characters escaped by the JSON
serializer. -/
def hexDigit (n : Nat) : Char :=
  if n < 10 then Char.ofNat (48 + n) else Char.ofNat (87 + n)

/-- JSON string escaping as performed by `json.dump` with
`ensure_ascii=False`: backslash, double quote, and the named and numeric
control escapes; all other characters pass through unescaped. -/
def jsonEscapeChar (c : Char) : String :=
  if c = '"' then "\\\""
  else if c = '\\' then "\\\\"
  else if c = '\n' then "\\n"
  else if c = '\t' then "\\t"
  else if c = '\r' then "\\r"
  else if c = Char.ofNat 8 then "\\b"
  else if c = Char.ofNat 12 then "\\f"
  else if c.toNat < 32 then
    "\\u00" ++ String.mk [hexDigit (c.toNat / 16), hexDigit (c.toNat % 16)]
  else String.singleton c

/-- Escapes every character of a JSON string body. -/
def jsonEscape (s : String) : String :=
  String.join (s.data.map jsonEscapeChar)

/-- Indentation prefix of `indent=2` output. -/
def jsonSpaces (n : Nat) : String :=
  String.mk (List.replicate n ' ')

mutual

/-- Deterministic rendering of a value as `json.dump(v, indent=2,
ensure_ascii=False)` renders it at the given indentation depth. -/
def jsonSerialize (ind : Nat) : JVal → String
  | .null => "null"
  | .bool true => "true"
  | .bool false => "false"
  | .num n => toString n
  | .str s => "\"" ++ jsonEscape s ++ "\""
  | .arr [] => "[]"
  | .arr (x :: xs) =>
    "[\n" ++ String.intercalate ",\n" (jsonSerializeList (ind + 2) (x :: xs)) ++
      "\n" ++ jsonSpaces ind ++ "]"
  | .obj [] => "\x7b\x7d"
  | .obj (kv :: kvs) =>
    "\x7b\n" ++ String.intercalate ",\n" (jsonSerializeKVs (ind + 2) (kv :: kvs)) ++
      "\n" ++ jsonSpaces ind ++ "\x7d"

/-- Renders the elements of a JSON array, each on its own indented line. -/
def jsonSerializeList (ind : Nat) : List JVal → List String
  | [] => []
  | x :: xs => (jsonSpaces ind ++ jsonSerialize ind x) :: jsonSerializeList ind xs

/-- Renders the members of a JSON object, each on its own indented line. -/
def jsonSerializeKVs (ind : Nat) : List (String × JVal) → List String
  | [] => []
  | (k, v) :: xs =>
    (jsonSpaces ind ++ "\"" ++ jsonEscape k ++ "\": " ++ jsonSerialize ind v) ::
      jsonSerializeKVs ind xs

end

/-- Document bytes of one export file as written by `json.dump(data, f,
indent=2, ensure_ascii=False)`. -/
def jsonDump (v : JVal) : String :=
  jsonSerialize 0 v

/-- Top-level object with the named field removed, used to compare export
documents apart from their `export_date` field. -/
def removeField (k : String) (v : JVal) : JVal :=
  match v with
  | .obj kvs => .obj (kvs.filter (fun kv => kv.1 ≠ k))
  | v => v

/-- List of playlist sub-documents of an export document. -/
def docPlaylists (doc : JVal) : List JVal :=
  match doc with
  | .obj kvs =>
    match kvs.lookup "playlists" with
    | some (.arr l) => l
    | _ => []
  | _ => []

/-- Field of a playlist sub-document, null when absent. -/
def subDocField (k : String) (p : JVal) : JVal :=
  match p with
  | .obj kvs => (kvs.lookup k).getD .null
  | _ => .null

/-- Python dict assignment `d[k] = v` on an insertion-ordered dict: an
existing key keeps its position and gets the new value, a new key is
appended at the end. -/
def upsert (k : String) (v : JVal) : List (String × JVal) → List (String × JVal)
  | [] => [(k, v)]
  | (k2, v2) :: rest =>
    if k2 == k then (k2, v) :: rest else (k2, v2) :: upsert k v rest

/-- Value stored by `main` (lines 325-328) for one playlist: the raw
playlist object under `playlist_info` and its fetched track list. -/
def playlistEntry (savedPages : List (Page JVal))
    (playlistPages : String → List (Page JVal)) (p : SPlaylist) : JVal :=
  .obj [("playlist_info", p.toJVal),
        ("tracks", .arr (get_playlist_tracks savedPages playlistPages p.id))]

/-- Embedding of the `all_playlist_data` construction in `main` (lines
321-328): iterate the confirmed playlist list in order and assign each
playlist entry into the dict keyed by the display name. -/
def mainBuildData (savedPages : List (Page JVal))
    (playlistPages : String → List (Page JVal)) (ps : List SPlaylist) :
    List (String × JVal) :=
  ps.foldl (fun acc p => upsert p.name (playlistEntry savedPages playlistPages p) acc) []

theorem fetchAll_eq_flatten {α : Type} :
    ∀ pages : List (Page α), pagesWellFormed pages = true →
      fetchAll pages = (pages.map Page.items).flatten
  | [], _ => by simp [fetchAll]
  | [p], h => by
    have hn : p.next = none := Option.isNone_iff_eq_none.mp h
    simp [fetchAll, hn]
  | p :: q :: rest, h => by
    obtain ⟨h1, h2⟩ := Bool.and_eq_true_iff.mp h
    obtain ⟨c, hc⟩ := Option.isSome_iff_exists.mp h1
    show p.items ++ (match p.next with
        | some _ => fetchAll (q :: rest)
        | none => []) = ((p :: q :: rest).map Page.items).flatten
    rw [hc, fetchAll_eq_flatten (q :: rest) h2]
    simp

theorem fetchAll_stops_at_null {α : Type} :
    ∀ pages : List (Page α), pages ≠ [] → pagesWellFormed pages = true →
      ∀ extra, fetchAll (pages ++ extra) = fetchAll pages
  | [], hne, _ => absurd rfl hne
  | [p], _, h => by
    have hn : p.next = none := Option.isNone_iff_eq_none.mp h
    intro extra
    simp [fetchAll, hn]
  | p :: q :: rest, _, h => by
    obtain ⟨h1, h2⟩ := Bool.and_eq_true_iff.mp h
    obtain ⟨c, hc⟩ := Option.isSome_iff_exists.mp h1
    intro extra
    show p.items ++ (match p.next with
        | some _ => fetchAll (q :: rest ++ extra)
        | none => []) = p.items ++ (match p.next with
        | some _ => fetchAll (q :: rest)
        | none => [])
    rw [hc, fetchAll_stops_at_null (q :: rest) (List.cons_ne_nil q rest) h2 extra]

theorem fetchPlaylistsLoop_eq_filter :
    ∀ pages : List (Page SPlaylist), pagesWellFormed pages = true →
      fetchPlaylistsLoop pages =
        ((pages.map Page.items).flatten).filter (fun pl => decide (0 < pl.tracksTotal))
  | [], _ => by simp [fetchPlaylistsLoop]
  | [p], h => by
    have hn : p.next = none := Option.isNone_iff_eq_none.mp h
    simp [fetchPlaylistsLoop, hn]
  | p :: q :: rest, h => by
    obtain ⟨h1, h2⟩ := Bool.and_eq_true_iff.mp h
    obtain ⟨c, hc⟩ := Option.isSome_iff_exists.mp h1
    show p.items.filter (fun pl => decide (0 < pl.tracksTotal)) ++
        (match p.next with
          | some _ => fetchPlaylistsLoop (q :: rest)
          | none => []) =
      (((p :: q :: rest).map Page.items).flatten).filter
        (fun pl => decide (0 < pl.tracksTotal))
    rw [hc, fetchPlaylistsLoop_eq_filter (q :: rest) h2]
    simp [List.filter_append]

/-- Zero-track playlist used to separate the playlist listing from a plain
concatenation of page items. -/
def zeroTrackPl : SPlaylist := ⟨"37i9dQZF1DX0", "Empty mix", 0, []⟩

/-- Single listing page, null next cursor, holding one zero-track playlist. -/
def zeroTrackPage : Page SPlaylist := ⟨[zeroTrackPl], none⟩

/-- C1: the claim states that the playlist-listing fetch also returns the
concatenation of all pages item lists, but the listing loop keeps only
playlists with a positive track count: on a single well-formed page holding
one zero-track playlist it returns the empty list, not the one-element
concatenation. -/
theorem C1_counterexample :
    pagesWellFormed [zeroTrackPage] = true ∧
    ([zeroTrackPage].map Page.items).flatten = [zeroTrackPl] ∧
    fetchPlaylistsLoop [zeroTrackPage] = [] ∧
    fetchPlaylistsLoop [zeroTrackPage] ≠ ([zeroTrackPage].map Page.items).flatten := by
  refine ⟨rfl, by simp [zeroTrackPage], rfl, ?_⟩
  intro h
  rw [show fetchPlaylistsLoop [zeroTrackPage] = [] from rfl,
    show ([zeroTrackPage].map Page.items).flatten = [zeroTrackPl] by simp [zeroTrackPage]] at h
  exact List.noConfusion h

/-- C1 (amended): on a page sequence in which every page but the last has a
non-null `next` cursor and the last has a null one, the saved-track and
playlist-track fetches return the concatenation of all pages item lists in
page order and intra-page order, no page past the null cursor is ever
consulted, and the playlist listing walks the pages the same way while
keeping only playlists with a positive track count. -/
theorem C1_pagination (pages : List (Page Nat))
    (savedPages : List (Page JVal)) (playlistPages : String → List (Page JVal))
    (pid : String) (listPages : List (Page SPlaylist)) :
    (pagesWellFormed pages = true → fetchAll pages = (pages.map Page.items).flatten) ∧
    (pages ≠ [] → pagesWellFormed pages = true →
      ∀ extra, fetchAll (pages ++ extra) = fetchAll pages) ∧
    (pagesWellFormed savedPages = true →
      get_saved_tracks savedPages = (savedPages.map Page.items).flatten) ∧
    (pid ≠ "liked_songs" → pagesWellFormed (playlistPages pid) = true →
      get_playlist_tracks savedPages playlistPages pid =
        ((playlistPages pid).map Page.items).flatten) ∧
    (pagesWellFormed listPages = true →
      fetchPlaylistsLoop listPages =
        ((listPages.map Page.items).flatten).filter (fun pl => decide (0 < pl.tracksTotal))) := by
  refine ⟨fetchAll_eq_flatten pages, fun hne h => fetchAll_stops_at_null pages hne h,
    fetchAll_eq_flatten savedPages, fun hid h => ?_, fetchPlaylistsLoop_eq_filter listPages⟩
  rw [get_playlist_tracks, if_neg hid]
  exact fetchAll_eq_flatten _ h

/-- Concrete two-page run of the three pagination loops, obtained from
`C1_pagination`. -/
theorem C1_pagination_witness :
    pagesWellFormed [(⟨[1, 2], some "cur"⟩ : Page Nat), ⟨[3], none⟩] = true ∧
    fetchAll [(⟨[1, 2], some "cur"⟩ : Page Nat), ⟨[3], none⟩] =
      ([(⟨[1, 2], some "cur"⟩ : Page Nat), ⟨[3], none⟩].map Page.items).flatten ∧
    fetchAll ([(⟨[1, 2], some "cur"⟩ : Page Nat), ⟨[3], none⟩] ++ [⟨[7], none⟩]) =
      fetchAll [(⟨[1, 2], some "cur"⟩ : Page Nat), ⟨[3], none⟩] ∧
    get_saved_tracks [⟨[.str "t1"], none⟩] =
      ([(⟨[.str "t1"], none⟩ : Page JVal)].map Page.items).flatten ∧
    get_playlist_tracks [⟨[.str "t1"], none⟩] (fun _ => [⟨[.str "p1"], none⟩]) "abc" =
      ([(⟨[.str "p1"], none⟩ : Page JVal)].map Page.items).flatten ∧
    fetchPlaylistsLoop [zeroTrackPage] =
      (([zeroTrackPage].map Page.items).flatten).filter
        (fun pl => decide (0 < pl.tracksTotal)) := by
  have h := C1_pagination [(⟨[1, 2], some "cur"⟩ : Page Nat), ⟨[3], none⟩]
    [⟨[.str "t1"], none⟩] (fun _ => [⟨[.str "p1"], none⟩]) "abc" [zeroTrackPage]
  exact ⟨rfl, h.1 rfl, h.2.1 (List.cons_ne_nil _ _) rfl [⟨[7], none⟩],
    h.2.2.1 rfl, h.2.2.2.1 (by decide) rfl, h.2.2.2.2 rfl⟩

/-- C4: `get_playlist_tracks` on the sentinel id returns exactly the
saved-track fetch, for every behaviour of the playlist-tracks endpoint; on
any other id it returns the paginated playlist-tracks result for that id. -/
theorem C4_liked_songs_sentinel (savedPages : List (Page JVal))
    (playlistPages : String → List (Page JVal)) (pid : String) :
    get_playlist_tracks savedPages playlistPages "liked_songs" =
      get_saved_tracks savedPages ∧
    (pid ≠ "liked_songs" →
      get_playlist_tracks savedPages playlistPages pid = fetchAll (playlistPages pid)) := by
  constructor
  · rfl
  · intro h
    rw [get_playlist_tracks, if_neg h]

/-- Concrete run of `C4_liked_songs_sentinel`: the sentinel id ignores an
endpoint that would serve a different track, and a regular id uses it. -/
theorem C4_liked_songs_sentinel_witness :
    get_playlist_tracks [⟨[.str "saved1"], none⟩] (fun _ => [⟨[.str "other"], none⟩])
      "liked_songs" = get_saved_tracks [⟨[.str "saved1"], none⟩] ∧
    ("37abc" : String) ≠ "liked_songs" ∧
    get_playlist_tracks [⟨[.str "saved1"], none⟩] (fun _ => [⟨[.str "other"], none⟩])
      "37abc" = fetchAll [(⟨[.str "other"], none⟩ : Page JVal)] := by
  have h := C4_liked_songs_sentinel [⟨[.str "saved1"], none⟩]
    (fun _ => [⟨[.str "other"], none⟩]) "37abc"
  exact ⟨h.1, by decide, h.2 (by decide)⟩

theorem mem_fetchPlaylistsLoop_pos :
    ∀ pages : List (Page SPlaylist), ∀ p ∈ fetchPlaylistsLoop pages, 0 < p.tracksTotal
  | [], p, hp => absurd hp (List.not_mem_nil p)
  | pg :: rest, p, hp => by
    have hp2 : p ∈ pg.items.filter (fun pl => decide (0 < pl.tracksTotal)) ++
        (match pg.next with
          | some _ => fetchPlaylistsLoop rest
          | none => []) := hp
    rcases List.mem_append.mp hp2 with h | h
    · exact of_decide_eq_true (List.mem_filter.mp h).2
    · cases hnx : pg.next with
      | some c =>
        rw [hnx] at h
        exact mem_fetchPlaylistsLoop_pos rest p h
      | none =>
        rw [hnx] at h
        exact absurd h (List.not_mem_nil p)

theorem aggregator_fst_eq (playlistPages : List (Page SPlaylist))
    (savedPages : List (Page JVal)) :
    (get_user_playlists_and_saved_tracks playlistPages savedPages).1 =
      sortPlaylists (if (get_saved_tracks savedPages).isEmpty
        then fetchPlaylistsLoop playlistPages
        else fetchPlaylistsLoop playlistPages ++
          [likedSongsPlaylist (get_saved_tracks savedPages).length]) := rfl

/-- C5: the aggregator output is, up to the final sort, the kept fetched
playlists plus the synthetic Liked-Songs playlist exactly when any saved
tracks exist; with saved tracks present the synthetic record (id
`"liked_songs"`, name `"Liked Songs"`, count the saved-track count) is in
the output, and with no saved tracks nothing in the output carries the
sentinel id, provided no fetched playlist does. -/
theorem C5_synthetic_liked_songs (playlistPages : List (Page SPlaylist))
    (savedPages : List (Page JVal)) :
    (List.Perm (get_user_playlists_and_saved_tracks playlistPages savedPages).1
      (fetchPlaylistsLoop playlistPages ++
        (if (get_saved_tracks savedPages).isEmpty then []
         else [likedSongsPlaylist (get_saved_tracks savedPages).length]))) ∧
    ((get_user_playlists_and_saved_tracks playlistPages savedPages).2 ≠ [] →
      likedSongsPlaylist (get_saved_tracks savedPages).length ∈
        (get_user_playlists_and_saved_tracks playlistPages savedPages).1) ∧
    ((get_user_playlists_and_saved_tracks playlistPages savedPages).2 = [] →
      (∀ q ∈ fetchPlaylistsLoop playlistPages, q.id ≠ "liked_songs") →
      ∀ q ∈ (get_user_playlists_and_saved_tracks playlistPages savedPages).1,
        q.id ≠ "liked_songs") := by
  refine ⟨?_, ?_, ?_⟩
  · rw [aggregator_fst_eq]
    by_cases hs : (get_saved_tracks savedPages).isEmpty
    · rw [if_pos hs, if_pos hs]
      simpa using List.perm_insertionSort nameLE _
    · rw [if_neg hs, if_neg hs]
      exact List.perm_insertionSort nameLE _
  · intro hne
    have hs : ¬ (get_saved_tracks savedPages).isEmpty = true := by
      rw [List.isEmpty_iff]
      exact hne
    rw [aggregator_fst_eq, if_neg hs, sortPlaylists]
    rw [List.mem_insertionSort]
    exact List.mem_append_right _ (List.mem_singleton_self _)
  · intro hnil hids q hq
    have hs : (get_saved_tracks savedPages).isEmpty = true := by
      rw [List.isEmpty_iff]
      exact hnil
    rw [aggregator_fst_eq, if_pos hs, sortPlaylists, List.mem_insertionSort] at hq
    exact hids q hq

/-- Concrete runs of `C5_synthetic_liked_songs`: with one saved track the
synthetic playlist is present; with no saved tracks no output record
carries the sentinel id. -/
theorem C5_synthetic_liked_songs_witness :
    ((get_user_playlists_and_saved_tracks [] [⟨[.str "s1"], none⟩]).2 ≠ [] ∧
      likedSongsPlaylist (get_saved_tracks [⟨[.str "s1"], none⟩]).length ∈
        (get_user_playlists_and_saved_tracks [] [⟨[.str "s1"], none⟩]).1) ∧
    ((get_user_playlists_and_saved_tracks [] []).2 = [] ∧
      ∀ q ∈ (get_user_playlists_and_saved_tracks [] []).1, q.id ≠ "liked_songs") := by
  constructor
  · have h := C5_synthetic_liked_songs [] [⟨[.str "s1"], none⟩]
    have hne : (get_user_playlists_and_saved_tracks [] [⟨[.str "s1"], none⟩]).2 ≠ [] :=
      List.cons_ne_nil _ _
    exact ⟨hne, h.2.1 hne⟩
  · have h := C5_synthetic_liked_songs [] []
    exact ⟨rfl, h.2.2 rfl (fun q hq => absurd hq (List.not_mem_nil q))⟩

/-- C6: every playlist the aggregator returns has a positive track count (so
zero-track playlists are excluded), and on a well-formed page sequence every
fetched playlist with a positive track count is retained in the output. -/
theorem C6_zero_track_playlists (playlistPages : List (Page SPlaylist))
    (savedPages : List (Page JVal)) :
    (∀ p ∈ (get_user_playlists_and_saved_tracks playlistPages savedPages).1,
      0 < p.tracksTotal) ∧
    (pagesWellFormed playlistPages = true →
      ∀ p ∈ (playlistPages.map Page.items).flatten, 0 < p.tracksTotal →
        p ∈ (get_user_playlists_and_saved_tracks playlistPages savedPages).1) := by
  constructor
  · intro p hp
    rw [aggregator_fst_eq, sortPlaylists, List.mem_insertionSort] at hp
    by_cases hs : (get_saved_tracks savedPages).isEmpty
    · rw [if_pos hs] at hp
      exact mem_fetchPlaylistsLoop_pos playlistPages p hp
    · rw [if_neg hs] at hp
      rcases List.mem_append.mp hp with h | h
      · exact mem_fetchPlaylistsLoop_pos playlistPages p h
      · rw [List.mem_singleton] at h
        subst h
        have hne : get_saved_tracks savedPages ≠ [] :=
          List.isEmpty_eq_false.mp (Bool.eq_false_iff.mpr hs)
        have hlen : 0 < (get_saved_tracks savedPages).length := List.length_pos.mpr hne
        show (0 : Int) < ((get_saved_tracks savedPages).length : Int)
        exact_mod_cast hlen
  · intro hw p hp hpos
    have hkept : p ∈ fetchPlaylistsLoop playlistPages := by
      rw [fetchPlaylistsLoop_eq_filter playlistPages hw]
      exact List.mem_filter.mpr ⟨hp, decide_eq_true hpos⟩
    rw [aggregator_fst_eq, sortPlaylists, List.mem_insertionSort]
    by_cases hs : (get_saved_tracks savedPages).isEmpty
    · rw [if_pos hs]
      exact hkept
    · rw [if_neg hs]
      exact List.mem_append_left _ hkept

/-- Concrete run of `C6_zero_track_playlists` on one page holding a
two-track playlist and a zero-track playlist. -/
theorem C6_zero_track_playlists_witness :
    (∀ p ∈ (get_user_playlists_and_saved_tracks
        [⟨[⟨"id1", "Rock", 2, []⟩, zeroTrackPl], none⟩] []).1, 0 < p.tracksTotal) ∧
    pagesWellFormed [(⟨[⟨"id1", "Rock", 2, []⟩, zeroTrackPl], none⟩ : Page SPlaylist)] = true ∧
    (⟨"id1", "Rock", 2, []⟩ : SPlaylist) ∈
      ([(⟨[⟨"id1", "Rock", 2, []⟩, zeroTrackPl], none⟩ : Page SPlaylist)].map Page.items).flatten ∧
    (0 : Int) < (⟨"id1", "Rock", 2, []⟩ : SPlaylist).tracksTotal ∧
    (⟨"id1", "Rock", 2, []⟩ : SPlaylist) ∈
      (get_user_playlists_and_saved_tracks
        [⟨[⟨"id1", "Rock", 2, []⟩, zeroTrackPl], none⟩] []).1 := by
  have h := C6_zero_track_playlists [⟨[⟨"id1", "Rock", 2, []⟩, zeroTrackPl], none⟩] []
  refine ⟨h.1, rfl, ?_, by decide, ?_⟩
  · simp
  · exact h.2 rfl _ (by simp) (by decide)

/-- C7: the aggregator output is sorted case-insensitively by display name
in ascending order and is a permutation of the collection before sorting;
on input names b, A, c the sorted order of names is A, b, c. -/
theorem C7_sorted_case_insensitive (playlistPages : List (Page SPlaylist))
    (savedPages : List (Page JVal)) :
    ((get_user_playlists_and_saved_tracks playlistPages savedPages).1).Sorted nameLE ∧
    (List.Perm (get_user_playlists_and_saved_tracks playlistPages savedPages).1
      (if (get_saved_tracks savedPages).isEmpty
        then fetchPlaylistsLoop playlistPages
        else fetchPlaylistsLoop playlistPages ++
          [likedSongsPlaylist (get_saved_tracks savedPages).length])) ∧
    (sortPlaylists [⟨"1", "b", 1, []⟩, ⟨"2", "A", 1, []⟩, ⟨"3", "c", 1, []⟩]).map
      SPlaylist.name = ["A", "b", "c"] := by
  refine ⟨?_, ?_, ?_⟩
  · rw [aggregator_fst_eq]
    exact List.sorted_insertionSort nameLE _
  · rw [aggregator_fst_eq]
    exact List.perm_insertionSort nameLE _
  · rfl

/-- Dict test corresponding to `isinstance(x, dict)`. -/
def isObjB : JVal → Bool
  | .obj _ => true
  | _ => false

/-- Shape condition under which the projection in `format_track_data`
cannot raise: the nested track value is a dict whose `artists` field (when
present) is a list of dicts and whose `album` and `external_urls` fields
(when present) are dicts. -/
def wellShapedTrackInfo : JVal → Bool
  | .obj tkvs =>
    (match tkvs.lookup "artists" with
     | some (.arr as) => as.all isObjB
     | some _ => false
     | none => true) &&
    (match tkvs.lookup "album" with
     | some v => isObjB v
     | none => true) &&
    (match tkvs.lookup "external_urls" with
     | some v => isObjB v
     | none => true)
  | _ => false

/-- Name of one artist record with the empty-string default. -/
def artistName (a : JVal) : JVal :=
  match a with
  | .obj akvs => lookupD akvs "name" (.str "")
  | _ => .str ""

/-- Artist list the projection iterates: the `artists` field when it is a
list, else the empty default. -/
def artistsListOf (tkvs : List (String × JVal)) : List JVal :=
  match lookupD tkvs "artists" (.arr []) with
  | .arr xs => xs
  | _ => []

/-- Album name read through the defaulted nested `album` dict. -/
def albumNameOf (tkvs : List (String × JVal)) : JVal :=
  match lookupD tkvs "album" (.obj []) with
  | .obj akvs => lookupD akvs "name" (.str "")
  | _ => .str ""

/-- External URL read through the defaulted nested `external_urls` dict. -/
def extUrlOf (tkvs : List (String × JVal)) : JVal :=
  match lookupD tkvs "external_urls" (.obj []) with
  | .obj ekvs => lookupD ekvs "spotify" (.str "")
  | _ => .str ""

/-- Record that `format_track_data` produces on a well-shaped input, with
empty-string and zero defaults for every absent field. -/
def projectedTrack (kvs tkvs : List (String × JVal)) : JVal :=
  .obj [("id", lookupD tkvs "id" (.str "")),
        ("name", lookupD tkvs "name" (.str "")),
        ("artists", .arr ((artistsListOf tkvs).map artistName)),
        ("album", albumNameOf tkvs),
        ("duration_ms", lookupD tkvs "duration_ms" (.num 0)),
        ("added_at", lookupD kvs "added_at" (.str "")),
        ("uri", lookupD tkvs "uri" (.str "")),
        ("external_url", extUrlOf tkvs)]

/-- C2: on the dict that maps `"track"` to None, `format_track_data`
raises AttributeError (the first `.get` is called on None) instead of
returning a record, so the claim that it never raises is false. -/
theorem C2_counterexample :
    format_track_data (.obj [("track", .null)]) = .error .attributeError := rfl

theorem mapM_artistName :
    ∀ as : List JVal, as.all isObjB = true →
      as.mapM (fun a => pyGet a "name" (.str "")) = .ok (as.map artistName)
  | [], _ => rfl
  | a :: as, h => by
    rw [List.all_cons, Bool.and_eq_true_iff] at h
    cases a with
    | obj akvs =>
      rw [List.mapM_cons, mapM_artistName as h.2]
      rfl
    | null => simp [isObjB] at h
    | str s => simp [isObjB] at h
    | num n => simp [isObjB] at h
    | bool b => simp [isObjB] at h
    | arr xs => simp [isObjB] at h

theorem pyGet_obj (kvs : List (String × JVal)) (k : String) (d : JVal) :
    pyGet (.obj kvs) k d = .ok (lookupD kvs k d) := rfl

theorem format_track_data_success (kvs tkvs : List (String × JVal)) (as : List JVal)
    (ht : kvs.lookup "track" = some (.obj tkvs))
    (hA : (tkvs.lookup "artists").getD (.arr []) = .arr as)
    (hall : as.all isObjB = true)
    (hB : isObjB ((tkvs.lookup "album").getD (.obj [])) = true)
    (hE : isObjB ((tkvs.lookup "external_urls").getD (.obj [])) = true) :
    format_track_data (.obj kvs) = .ok (projectedTrack kvs tkvs, []) := by
  obtain ⟨bkvs, hB2⟩ : ∃ b, (tkvs.lookup "album").getD (.obj []) = .obj b := by
    cases hx : (tkvs.lookup "album").getD (.obj []) <;> rw [hx] at hB <;>
      first
        | exact ⟨_, rfl⟩
        | exact absurd hB Bool.false_ne_true
  obtain ⟨ekvs, hE2⟩ : ∃ e, (tkvs.lookup "external_urls").getD (.obj []) = .obj e := by
    cases hx : (tkvs.lookup "external_urls").getD (.obj []) <;> rw [hx] at hE <;>
      first
        | exact ⟨_, rfl⟩
        | exact absurd hE Bool.false_ne_true
  simp only [format_track_data, ht, pyGet_obj, lookupD, hA, hB2, hE2,
    mapM_artistName as hall, projectedTrack, artistsListOf, albumNameOf,
    extUrlOf]

/-- C2 (amended): `format_track_data` returns the empty record with a
logged error on every non-dict input and on every dict lacking the key
`"track"`, and on a dict whose `"track"` value is a well-shaped dict (a
dict whose artists field, when present, is a list of dicts, and whose album
and external-urls fields, when present, are dicts) it returns the projected
record with empty-string and zero defaults for every absent field, without
raising; with other `"track"` values (such as None) it can raise, as
`C2_counterexample` shows. -/
theorem C2_format_never_raises_amended (j : JVal) (kvs tkvs : List (String × JVal)) :
    ((∀ kvs2, j ≠ .obj kvs2) →
      format_track_data j = .ok (.obj [], [.errInvalidTrack j])) ∧
    (kvs.lookup "track" = none →
      format_track_data (.obj kvs) = .ok (.obj [], [.errInvalidTrack (.obj kvs)])) ∧
    (kvs.lookup "track" = some (.obj tkvs) →
      wellShapedTrackInfo (.obj tkvs) = true →
      format_track_data (.obj kvs) = .ok (projectedTrack kvs tkvs, [])) := by
  refine ⟨?_, ?_, ?_⟩
  · intro hj
    cases j with
    | obj kvs2 => exact absurd rfl (hj kvs2)
    | null => rfl
    | str s => rfl
    | num n => rfl
    | bool b => rfl
    | arr xs => rfl
  · intro hn
    simp only [format_track_data, hn]
  · intro ht hws
    simp only [wellShapedTrackInfo] at hws
    rw [Bool.and_eq_true_iff, Bool.and_eq_true_iff] at hws
    obtain ⟨⟨hart, halb⟩, hext⟩ := hws
    obtain ⟨as, hA, hall⟩ : ∃ as, (tkvs.lookup "artists").getD (.arr []) = .arr as ∧
        as.all isObjB = true := by
      cases hx : tkvs.lookup "artists" with
      | none => exact ⟨[], rfl, rfl⟩
      | some av =>
        rw [hx] at hart
        cases av with
        | arr as2 => exact ⟨as2, rfl, hart⟩
        | null => exact absurd hart Bool.false_ne_true
        | str s => exact absurd hart Bool.false_ne_true
        | num n => exact absurd hart Bool.false_ne_true
        | bool b => exact absurd hart Bool.false_ne_true
        | obj o => exact absurd hart Bool.false_ne_true
    have hB : isObjB ((tkvs.lookup "album").getD (.obj [])) = true := by
      cases hy : tkvs.lookup "album" with
      | none => rfl
      | some bv =>
        rw [hy] at halb
        exact halb
    have hE : isObjB ((tkvs.lookup "external_urls").getD (.obj [])) = true := by
      cases hy : tkvs.lookup "external_urls" with
      | none => rfl
      | some ev =>
        rw [hy] at hext
        exact hext
    exact format_track_data_success kvs tkvs as ht hA hall hB hE

/-- Concrete runs of `C2_format_never_raises_amended`: a bare string input,
a dict without the track key, and a well-shaped track record with partially
absent fields. -/
theorem C2_format_never_raises_amended_witness :
    format_track_data (.str "oops") = .ok (.obj [], [.errInvalidTrack (.str "oops")]) ∧
    format_track_data (.obj [("added_at", .str "2024")]) =
      .ok (.obj [], [.errInvalidTrack (.obj [("added_at", .str "2024")])]) ∧
    format_track_data (.obj [("added_at", .str "2024"),
        ("track", .obj [("name", .str "Song"),
          ("artists", .arr [.obj [("name", .str "Artist")], .obj []])])]) =
      .ok (projectedTrack [("added_at", .str "2024"),
        ("track", .obj [("name", .str "Song"),
          ("artists", .arr [.obj [("name", .str "Artist")], .obj []])])]
        [("name", .str "Song"),
          ("artists", .arr [.obj [("name", .str "Artist")], .obj []])], []) := by
  refine ⟨?_, ?_, ?_⟩
  · exact (C2_format_never_raises_amended (.str "oops") [] []).1
      (fun kvs2 h => JVal.noConfusion h)
  · exact (C2_format_never_raises_amended .null [("added_at", .str "2024")] []).2.1 rfl
  · exact (C2_format_never_raises_amended .null
      [("added_at", .str "2024"),
        ("track", .obj [("name", .str "Song"),
          ("artists", .arr [.obj [("name", .str "Artist")], .obj []])])]
      [("name", .str "Song"),
        ("artists", .arr [.obj [("name", .str "Artist")], .obj []])]).2.2 rfl rfl

/-- C3: the claim says an entry whose track list is null is skipped and
contributes no playlist sub-document, but on such an entry the export warns,
substitutes the empty track list, and still emits a full and a minimal
playlist sub-document for it. -/
theorem C3_counterexample :
    save_playlists_to_json "D" "D"
      [("p", .obj [("playlist_info", .obj [("id", .str "i"), ("name", .str "P")]),
                   ("tracks", .null)])] =
      .ok (.obj [("export_date", .str "D"),
             ("playlists", .arr [.obj [("id", .str "i"), ("name", .str "P"),
               ("description", .str ""), ("owner", .str "You"),
               ("tracks_count", .num 0), ("tracks", .arr [])]])],
           .obj [("export_date", .str "D"),
             ("playlists", .arr [.obj [("name", .str "P"), ("tracks", .arr [])]])],
           [.infoProcessing "p", .warnTracksNone "p"]) ∧
    (docPlaylists (.obj [("export_date", .str "D"),
       ("playlists", .arr [.obj [("id", .str "i"), ("name", .str "P"),
         ("description", .str ""), ("owner", .str "You"),
         ("tracks_count", .num 0), ("tracks", .arr [])]])])).length = 1 := by
  exact ⟨rfl, rfl⟩

/-- C3 (amended): entries whose playlist data or playlist metadata is null
are skipped with a logged warning and contribute no sub-document to either
export document; an entry whose track list is null gets a logged warning
and is exported anyway, with an empty track list, in both documents. -/
theorem C3_null_handling (name : String) (pd : JVal) (rest : List (String × JVal)) :
    (pd = .null → processEntry name pd =
      .ok (none, [.infoProcessing name, .warnPlaylistDataNone name])) ∧
    (∀ kvs, pd = .obj kvs → (kvs.lookup "playlist_info").getD .null = .null →
      processEntry name pd =
        .ok (none, [.infoProcessing name, .warnPlaylistInfoNone name])) ∧
    (∀ lg fps mps lgs, processEntry name pd = .ok (none, lg) →
      exportLoop rest = .ok (fps, mps, lgs) →
      exportLoop ((name, pd) :: rest) = .ok (fps, mps, lg ++ lgs)) ∧
    (∀ kvs f m lg, pd = .obj kvs → kvs.lookup "tracks" = some .null →
      processEntry name pd = .ok (some (f, m), lg) →
      subDocField "tracks" f = .arr [] ∧ subDocField "tracks" m = .arr [] ∧
      .warnTracksNone name ∈ lg) := by
  refine ⟨?_, ?_, ?_, ?_⟩
  · intro h
    subst h
    rfl
  · intro kvs h hpi
    subst h
    simp only [processEntry, pyGet_obj, lookupD, hpi]
  · intro lg fps mps lgs hpe hrest
    simp only [exportLoop, hpe, hrest]
  · intro kvs f m lg hobj htr hpe
    subst hobj
    simp only [processEntry, pyGet_obj, lookupD, htr, Option.getD_some, pyGet,
      processTracks] at hpe
    repeat' split at hpe
    all_goals simp only [Except.ok.injEq, Except.error.injEq, Prod.mk.injEq,
      Option.some.injEq, reduceCtorEq, false_and, and_false] at hpe
    obtain ⟨⟨hf, hm⟩, hlg⟩ := hpe
    subst hf
    subst hm
    subst hlg
    refine ⟨rfl, rfl, ?_⟩
    exact List.mem_cons_of_mem _ (List.mem_cons_self _ _)

/-- Concrete runs of `C3_null_handling`: a null entry, a null
`playlist_info`, the skip contributing nothing, and a null track list still
producing sub-documents with empty tracks. -/
theorem C3_null_handling_witness :
    processEntry "w" .null = .ok (none, [.infoProcessing "w", .warnPlaylistDataNone "w"]) ∧
    processEntry "w" (.obj [("playlist_info", .null)]) =
      .ok (none, [.infoProcessing "w", .warnPlaylistInfoNone "w"]) ∧
    exportLoop [("w", (.null : JVal))] =
      .ok ([], [], [.infoProcessing "w", .warnPlaylistDataNone "w"] ++ []) ∧
    (subDocField "tracks" (.obj [("id", .null), ("name", .str "N"),
        ("description", .str ""), ("owner", .str "You"), ("tracks_count", .num 0),
        ("tracks", .arr [])]) = .arr [] ∧
      subDocField "tracks" (.obj [("name", .str "N"), ("tracks", .arr [])]) = .arr [] ∧
      LogMsg.warnTracksNone "w" ∈ [LogMsg.infoProcessing "w", LogMsg.warnTracksNone "w"]) := by
  refine ⟨(C3_null_handling "w" .null []).1 rfl,
    (C3_null_handling "w" (.obj [("playlist_info", .null)]) []).2.1 _ rfl rfl,
    (C3_null_handling "w" .null []).2.2.1 _ [] [] []
      ((C3_null_handling "w" .null []).1 rfl) rfl,
    (C3_null_handling "w"
      (.obj [("playlist_info", .obj [("name", .str "N")]), ("tracks", .null)]) []).2.2.2
      _ _ _ _ rfl rfl rfl⟩

/-- Non-empty-name property of a playlist sub-document, as the spec
invariant states it. -/
def nonEmptyName (p : JVal) : Prop :=
  ∃ s, subDocField "name" p = .str s ∧ s ≠ ""

/-- C8: an export input whose playlist metadata carries the empty string as
its name produces a playlist sub-document whose name is the empty string in
both documents, so the non-empty-name invariant fails on the export
operation as a whole. -/
theorem C8_counterexample :
    save_playlists_to_json "D" "D"
      [("x", .obj [("playlist_info", .obj [("name", .str "")]), ("tracks", .arr [])])] =
      .ok (.obj [("export_date", .str "D"),
             ("playlists", .arr [.obj [("id", .null), ("name", .str ""),
               ("description", .str ""), ("owner", .str "You"),
               ("tracks_count", .num 0), ("tracks", .arr [])]])],
           .obj [("export_date", .str "D"),
             ("playlists", .arr [.obj [("name", .str ""), ("tracks", .arr [])]])],
           [.infoProcessing "x"]) ∧
    ¬ nonEmptyName (.obj [("id", .null), ("name", .str ""),
        ("description", .str ""), ("owner", .str "You"),
        ("tracks_count", .num 0), ("tracks", .arr [])]) ∧
    ¬ nonEmptyName (.obj [("name", .str ""), ("tracks", .arr [])]) := by
  refine ⟨rfl, ?_, ?_⟩
  · rintro ⟨s, hs, hne⟩
    injection hs with h
    exact hne h.symm
  · rintro ⟨s, hs, hne⟩
    injection hs with h
    exact hne h.symm

theorem exportLoop_full_mem :
    ∀ (input : List (String × JVal)) (fps mps : List JVal) (lgs : List LogMsg),
      exportLoop input = .ok (fps, mps, lgs) →
      ∀ f ∈ fps, ∃ kv ∈ input, ∃ m lg, processEntry kv.1 kv.2 = .ok (some (f, m), lg)
  | [], fps, mps, lgs, h, f, hf => by
    simp only [exportLoop, Except.ok.injEq, Prod.mk.injEq] at h
    rw [← h.1] at hf
    exact absurd hf (List.not_mem_nil f)
  | (name, pd) :: rest, fps, mps, lgs, h, f, hf => by
    rcases hpe : processEntry name pd with e | ⟨res, lg⟩
    · rw [show exportLoop ((name, pd) :: rest) = .error e by
        simp only [exportLoop, hpe]] at h
      exact absurd h (by simp)
    · rcases hrest : exportLoop rest with e | ⟨⟨fps2, mps2, lgs2⟩⟩
      · rw [show exportLoop ((name, pd) :: rest) = .error e by
          simp only [exportLoop, hpe, hrest]] at h
        exact absurd h (by simp)
      · cases res with
        | none =>
          rw [show exportLoop ((name, pd) :: rest) = .ok (fps2, mps2, lg ++ lgs2) by
            simp only [exportLoop, hpe, hrest]] at h
          simp only [Except.ok.injEq, Prod.mk.injEq] at h
          rw [← h.1] at hf
          obtain ⟨kv, hkv, m, lg2, hp⟩ :=
            exportLoop_full_mem rest fps2 mps2 lgs2 hrest f hf
          exact ⟨kv, List.mem_cons_of_mem _ hkv, m, lg2, hp⟩
        | some fm =>
          rcases fm with ⟨f0, m0⟩
          rw [show exportLoop ((name, pd) :: rest) = .ok (f0 :: fps2, m0 :: mps2, lg ++ lgs2) by
            simp only [exportLoop, hpe, hrest]] at h
          simp only [Except.ok.injEq, Prod.mk.injEq] at h
          rw [← h.1] at hf
          rcases List.mem_cons.mp hf with heq | hmem
          · subst heq
            exact ⟨(name, pd), List.mem_cons_self _ _, m0, lg, hpe⟩
          · obtain ⟨kv, hkv, m, lg2, hp⟩ :=
              exportLoop_full_mem rest fps2 mps2 lgs2 hrest f hmem
            exact ⟨kv, List.mem_cons_of_mem _ hkv, m, lg2, hp⟩

theorem exportLoop_min_mem :
    ∀ (input : List (String × JVal)) (fps mps : List JVal) (lgs : List LogMsg),
      exportLoop input = .ok (fps, mps, lgs) →
      ∀ m ∈ mps, ∃ kv ∈ input, ∃ f lg, processEntry kv.1 kv.2 = .ok (some (f, m), lg)
  | [], fps, mps, lgs, h, m, hm => by
    simp only [exportLoop, Except.ok.injEq, Prod.mk.injEq] at h
    rw [← h.2.1] at hm
    exact absurd hm (List.not_mem_nil m)
  | (name, pd) :: rest, fps, mps, lgs, h, m, hm => by
    rcases hpe : processEntry name pd with e | ⟨res, lg⟩
    · rw [show exportLoop ((name, pd) :: rest) = .error e by
        simp only [exportLoop, hpe]] at h
      exact absurd h (by simp)
    · rcases hrest : exportLoop rest with e | ⟨⟨fps2, mps2, lgs2⟩⟩
      · rw [show exportLoop ((name, pd) :: rest) = .error e by
          simp only [exportLoop, hpe, hrest]] at h
        exact absurd h (by simp)
      · cases res with
        | none =>
          rw [show exportLoop ((name, pd) :: rest) = .ok (fps2, mps2, lg ++ lgs2) by
            simp only [exportLoop, hpe, hrest]] at h
          simp only [Except.ok.injEq, Prod.mk.injEq] at h
          rw [← h.2.1] at hm
          obtain ⟨kv, hkv, f, lg2, hp⟩ :=
            exportLoop_min_mem rest fps2 mps2 lgs2 hrest m hm
          exact ⟨kv, List.mem_cons_of_mem _ hkv, f, lg2, hp⟩
        | some fm =>
          rcases fm with ⟨f0, m0⟩
          rw [show exportLoop ((name, pd) :: rest) = .ok (f0 :: fps2, m0 :: mps2, lg ++ lgs2) by
            simp only [exportLoop, hpe, hrest]] at h
          simp only [Except.ok.injEq, Prod.mk.injEq] at h
          rw [← h.2.1] at hm
          rcases List.mem_cons.mp hm with hoeq | hmem
          · subst hoeq
            exact ⟨(name, pd), List.mem_cons_self _ _, f0, lg, hpe⟩
          · obtain ⟨kv, hkv, f, lg2, hp⟩ :=
              exportLoop_min_mem rest fps2 mps2 lgs2 hrest m hmem
            exact ⟨kv, List.mem_cons_of_mem _ hkv, f, lg2, hp⟩

theorem processEntry_some_name (name : String) (pd : JVal) (f m : JVal) (lg : List LogMsg)
    (h : processEntry name pd = .ok (some (f, m), lg)) :
    ∃ kvs pkvs, pd = .obj kvs ∧
      (kvs.lookup "playlist_info").getD .null = .obj pkvs ∧
      subDocField "name" f = (pkvs.lookup "name").getD .null ∧
      subDocField "name" m = (pkvs.lookup "name").getD .null := by
  cases pd with
  | obj kvs =>
    simp only [processEntry, pyGet_obj, lookupD] at h
    cases hpi : (kvs.lookup "playlist_info").getD .null with
    | obj pkvs =>
      rw [hpi] at h
      simp only [pyGet_obj, lookupD, pyGet, processTracks] at h
      refine ⟨kvs, pkvs, rfl, hpi, ?_⟩
      repeat' split at h
      all_goals simp only [Except.ok.injEq, Except.error.injEq, Prod.mk.injEq,
        Option.some.injEq, reduceCtorEq, false_and, and_false] at h
      all_goals obtain ⟨⟨hf, hm⟩, hlg⟩ := h
      all_goals rw [← hf, ← hm]
      all_goals exact ⟨rfl, rfl⟩
    | null =>
      rw [hpi] at h
      simp at h
    | str s =>
      rw [hpi] at h
      simp [pyGet] at h
    | num n =>
      rw [hpi] at h
      simp [pyGet] at h
    | bool b =>
      rw [hpi] at h
      simp [pyGet] at h
    | arr xs =>
      rw [hpi] at h
      simp [pyGet] at h
  | null => simp [processEntry] at h
  | str s => simp [processEntry, pyGet] at h
  | num n => simp [processEntry, pyGet] at h
  | bool b => simp [processEntry, pyGet] at h
  | arr xs => simp [processEntry, pyGet] at h

/-- C8 (amended): a playlist sub-document carries exactly the name stored in
its entry playlist metadata (null when absent, with no default), so the
non-empty-name invariant holds for both export documents precisely when
every processed entry metadata carries a non-empty string name; absent or
empty input names reach the documents unchanged, as `C8_counterexample`
shows. -/
theorem C8_nonempty_names_amended (input : List (String × JVal)) (d1 d2 : String)
    (fdoc mdoc : JVal) (lgs : List LogMsg)
    (hrun : save_playlists_to_json d1 d2 input = .ok (fdoc, mdoc, lgs))
    (hnames : ∀ kv ∈ input, ∀ kvs pkvs,
      kv.2 = .obj kvs → (kvs.lookup "playlist_info").getD .null = .obj pkvs →
      ∃ s, (pkvs.lookup "name").getD .null = .str s ∧ s ≠ "") :
    (∀ p ∈ docPlaylists fdoc, nonEmptyName p) ∧
    (∀ p ∈ docPlaylists mdoc, nonEmptyName p) := by
  rcases hloop : exportLoop input with e | ⟨⟨fps, mps, lgs2⟩⟩
  · rw [show save_playlists_to_json d1 d2 input = .error e by
      simp only [save_playlists_to_json, hloop]] at hrun
    exact absurd hrun (by simp)
  · rw [show save_playlists_to_json d1 d2 input =
        .ok (.obj [("export_date", .str d1), ("playlists", .arr fps)],
             .obj [("export_date", .str d2), ("playlists", .arr mps)], lgs2) by
      simp only [save_playlists_to_json, hloop]] at hrun
    simp only [Except.ok.injEq, Prod.mk.injEq] at hrun
    obtain ⟨hfd, hmd, hlg⟩ := hrun
    constructor
    · intro p hp
      rw [← hfd] at hp
      have hp2 : p ∈ fps := hp
      obtain ⟨kv, hkv, m, lg, hp
        ⟩ := exportLoop_full_mem input fps mps lgs2 hloop p hp2
      obtain ⟨kvs, pkvs, hobj, hpi, hnf, _⟩ :=
        processEntry_some_name kv.1 kv.2 p m lg hp
      obtain ⟨s, hs, hne⟩ := hnames kv hkv kvs pkvs hobj hpi
      exact ⟨s, by rw [hnf, hs], hne⟩
    · intro p hp
      rw [← hmd] at hp
      have hp2 : p ∈ mps := hp
      obtain ⟨kv, hkv, f, lg, hpm⟩ := exportLoop_min_mem input fps mps lgs2 hloop p hp2
      obtain ⟨kvs, pkvs, hobj, hpi, _, hnm⟩ :=
        processEntry_some_name kv.1 kv.2 f p lg hpm
      obtain ⟨s, hs, hne⟩ := hnames kv hkv kvs pkvs hobj hpi
      exact ⟨s, by rw [hnm, hs], hne⟩

/-- Concrete run of `C8_nonempty_names_amended` on one entry whose metadata
name is the non-empty string Mix. -/
theorem C8_nonempty_names_amended_witness :
    save_playlists_to_json "D" "D"
      [("x", .obj [("playlist_info", .obj [("name", .str "Mix")]), ("tracks", .arr [])])] =
      .ok (.obj [("export_date", .str "D"),
             ("playlists", .arr [.obj [("id", .null), ("name", .str "Mix"),
               ("description", .str ""), ("owner", .str "You"),
               ("tracks_count", .num 0), ("tracks", .arr [])]])],
           .obj [("export_date", .str "D"),
             ("playlists", .arr [.obj [("name", .str "Mix"), ("tracks", .arr [])]])],
           [.infoProcessing "x"]) ∧
    (∀ p ∈ docPlaylists (.obj [("export_date", .str "D"),
        ("playlists", .arr [.obj [("id", .null), ("name", .str "Mix"),
          ("description", .str ""), ("owner", .str "You"),
          ("tracks_count", .num 0), ("tracks", .arr [])]])]), nonEmptyName p) ∧
    (∀ p ∈ docPlaylists (.obj [("export_date", .str "D"),
        ("playlists", .arr [.obj [("name", .str "Mix"), ("tracks", .arr [])]])]),
      nonEmptyName p) := by
  refine ⟨rfl, ?_⟩
  exact C8_nonempty_names_amended
    [("x", .obj [("playlist_info", .obj [("name", .str "Mix")]), ("tracks", .arr [])])]
    "D" "D" _ _ _ rfl
    (by
      intro kv hkv kvs pkvs hobj hpi
      rw [List.mem_singleton] at hkv
      subst hkv
      injection hobj with hkvs
      subst hkvs
      injection hpi with hpkvs
      subst hpkvs
      exact ⟨"Mix", rfl, by decide⟩)

/-- C9: two runs of the export on the same input mapping produce the same
playlist trees, logs, and serialized bytes once the `export_date` field is
set aside; the timestamps flow only into `export_date` (and the directory
name, which is file-system glue outside the value model). -/
theorem C9_export_idempotent (input : List (String × JVal)) (d1 d2 d3 d4 : String)
    (f1 m1 : JVal) (l1 : List LogMsg) (f2 m2 : JVal) (l2 : List LogMsg)
    (h1 : save_playlists_to_json d1 d2 input = .ok (f1, m1, l1))
    (h2 : save_playlists_to_json d3 d4 input = .ok (f2, m2, l2)) :
    removeField "export_date" f1 = removeField "export_date" f2 ∧
    removeField "export_date" m1 = removeField "export_date" m2 ∧
    l1 = l2 ∧
    jsonDump (removeField "export_date" f1) = jsonDump (removeField "export_date" f2) ∧
    jsonDump (removeField "export_date" m1) = jsonDump (removeField "export_date" m2) := by
  rcases hloop : exportLoop input with e | ⟨⟨fps, mps, lgs2⟩⟩
  · rw [show save_playlists_to_json d1 d2 input = .error e by
      simp only [save_playlists_to_json, hloop]] at h1
    exact absurd h1 (by simp)
  · rw [show save_playlists_to_json d1 d2 input =
        .ok (.obj [("export_date", .str d1), ("playlists", .arr fps)],
             .obj [("export_date", .str d2), ("playlists", .arr mps)], lgs2) by
      simp only [save_playlists_to_json, hloop]] at h1
    rw [show save_playlists_to_json d3 d4 input =
        .ok (.obj [("export_date", .str d3), ("playlists", .arr fps)],
             .obj [("export_date", .str d4), ("playlists", .arr mps)], lgs2) by
      simp only [save_playlists_to_json, hloop]] at h2
    simp only [Except.ok.injEq, Prod.mk.injEq] at h1 h2
    obtain ⟨hf1, hm1, hl1⟩ := h1
    obtain ⟨hf2, hm2, hl2⟩ := h2
    rw [← hf1, ← hf2, ← hm1, ← hm2, ← hl1, ← hl2]
    refine ⟨?_, ?_, rfl, ?_, ?_⟩ <;> rfl

/-- Concrete double run of `C9_export_idempotent` on a one-entry input with
different timestamps. -/
theorem C9_export_idempotent_witness :
    save_playlists_to_json "T1" "T2"
      [("x", .obj [("playlist_info", .obj [("name", .str "Mix")]), ("tracks", .arr [])])] =
      .ok (.obj [("export_date", .str "T1"),
             ("playlists", .arr [.obj [("id", .null), ("name", .str "Mix"),
               ("description", .str ""), ("owner", .str "You"),
               ("tracks_count", .num 0), ("tracks", .arr [])]])],
           .obj [("export_date", .str "T2"),
             ("playlists", .arr [.obj [("name", .str "Mix"), ("tracks", .arr [])]])],
           [.infoProcessing "x"]) ∧
    removeField "export_date" (.obj [("export_date", .str "T1"),
        ("playlists", .arr [.obj [("id", .null), ("name", .str "Mix"),
          ("description", .str ""), ("owner", .str "You"),
          ("tracks_count", .num 0), ("tracks", .arr [])]])]) =
      removeField "export_date" (.obj [("export_date", .str "T3"),
        ("playlists", .arr [.obj [("id", .null), ("name", .str "Mix"),
          ("description", .str ""), ("owner", .str "You"),
          ("tracks_count", .num 0), ("tracks", .arr [])]])]) ∧
    jsonDump (removeField "export_date" (.obj [("export_date", .str "T2"),
        ("playlists", .arr [.obj [("name", .str "Mix"), ("tracks", .arr [])]])])) =
      jsonDump (removeField "export_date" (.obj [("export_date", .str "T4"),
        ("playlists", .arr [.obj [("name", .str "Mix"), ("tracks", .arr [])]])])) := by
  have h := C9_export_idempotent
    [("x", .obj [("playlist_info", .obj [("name", .str "Mix")]), ("tracks", .arr [])])]
    "T1" "T2" "T3" "T4" _ _ _ _ _ _ rfl rfl
  exact ⟨rfl, h.1, h.2.2.2.2⟩

theorem lookup_cons_pair (a k : String) (b : JVal) (es : List (String × JVal)) :
    ((k, b) :: es).lookup a = if a = k then some b else es.lookup a := by
  simp only [List.lookup]
  split
  · next h => simp [eq_of_beq h]
  · next h => simp [ne_of_beq_false h]

theorem lookup_upsert (k n : String) (v : JVal) :
    ∀ l : List (String × JVal),
      (upsert k v l).lookup n = if n = k then some v else l.lookup n
  | [] => by simp [upsert, lookup_cons_pair]
  | (k2, v2) :: rest => by
    by_cases hk : k2 = k
    · subst hk
      simp only [upsert, beq_self_eq_true, if_true]
      by_cases hn : n = k2 <;> simp [lookup_cons_pair, hn]
    · have hb : (k2 == k) = false := by simp [hk]
      simp only [upsert, hb, Bool.false_eq_true, if_false]
      by_cases hn : n = k2
      · subst hn
        simp [lookup_cons_pair, hk]
      · simp [lookup_cons_pair, hn, lookup_upsert k n v rest]

theorem keys_upsert (k : String) (v : JVal) :
    ∀ l : List (String × JVal),
      (upsert k v l).map Prod.fst =
        if k ∈ l.map Prod.fst then l.map Prod.fst else l.map Prod.fst ++ [k]
  | [] => by simp [upsert]
  | (k2, v2) :: rest => by
    by_cases hk : k2 = k
    · subst hk
      simp [upsert]
    · have hb : (k2 == k) = false := by simp [hk]
      simp only [upsert, hb, Bool.false_eq_true, if_false, List.map_cons,
        keys_upsert k v rest]
      by_cases hmem : k ∈ rest.map Prod.fst <;>
        simp [hmem, List.mem_cons, Ne.symm hk]

theorem nodup_keys_upsert (k : String) (v : JVal) (l : List (String × JVal))
    (h : (l.map Prod.fst).Nodup) : ((upsert k v l).map Prod.fst).Nodup := by
  rw [keys_upsert]
  by_cases hmem : k ∈ l.map Prod.fst
  · simpa [hmem] using h
  · rw [if_neg hmem]
    refine List.Nodup.append h (List.nodup_singleton k) ?_
    intro x hx hx2
    rw [List.mem_singleton] at hx2
    subst hx2
    exact hmem hx

theorem mainBuildData_lookup_gen (savedPages : List (Page JVal))
    (playlistPages : String → List (Page JVal)) :
    ∀ (ps : List SPlaylist) (acc : List (String × JVal)) (n : String),
      (ps.foldl (fun acc p =>
          upsert p.name (playlistEntry savedPages playlistPages p) acc) acc).lookup n =
        match ps.reverse.find? (fun p => p.name == n) with
        | some p => some (playlistEntry savedPages playlistPages p)
        | none => acc.lookup n
  | [], acc, n => by simp
  | p :: ps, acc, n => by
    rw [List.foldl_cons, mainBuildData_lookup_gen savedPages playlistPages ps _ n,
      List.reverse_cons, List.find?_append]
    cases hf : ps.reverse.find? (fun q => q.name == n) with
    | some q => simp [hf]
    | none =>
      simp only [hf, Option.none_or]
      by_cases hn : p.name = n
      · subst hn
        simp [List.find?, lookup_upsert]
      · have hb : (p.name == n) = false := by simp [hn]
        simp [List.find?, hb, lookup_upsert, Ne.symm hn]

theorem mainBuildData_nodup_gen (savedPages : List (Page JVal))
    (playlistPages : String → List (Page JVal)) :
    ∀ (ps : List SPlaylist) (acc : List (String × JVal)),
      (acc.map Prod.fst).Nodup →
      ((ps.foldl (fun acc p =>
          upsert p.name (playlistEntry savedPages playlistPages p) acc) acc).map
        Prod.fst).Nodup
  | [], _, h => h
  | p :: ps, acc, h => by
    rw [List.foldl_cons]
    exact mainBuildData_nodup_gen savedPages playlistPages ps _
      (nodup_keys_upsert _ _ _ h)

theorem lookup_of_mem_nodup :
    ∀ (l : List (String × JVal)) (kv : String × JVal),
      (l.map Prod.fst).Nodup → kv ∈ l → l.lookup kv.1 = some kv.2
  | [], kv, _, hmem => absurd hmem (List.not_mem_nil kv)
  | (k2, v2) :: tl, kv, hnd, hmem => by
    rw [List.map_cons, List.nodup_cons] at hnd
    rcases List.mem_cons.mp hmem with heq | hmem2
    · subst heq
      simp [lookup_cons_pair]
    · have hne : kv.1 ≠ k2 := by
        intro he
        exact hnd.1 (he ▸ List.mem_map.mpr ⟨kv, hmem2, rfl⟩)
      rw [lookup_cons_pair, if_neg hne]
      exact lookup_of_mem_nodup tl kv hnd.2 hmem2

/-- C10: the data `main` hands to the export is keyed by display name: the
dict holds one entry per distinct name, the entry stored under a name is
built from the last playlist with that name in the iterated (sorted) list,
and every stored entry is of that form, so the tracks of earlier same-named
playlists reach neither export document. -/
theorem C10_keyed_by_display_name (savedPages : List (Page JVal))
    (playlistPages : String → List (Page JVal)) (ps : List SPlaylist) (n : String) :
    ((mainBuildData savedPages playlistPages ps).map Prod.fst).Nodup ∧
    (mainBuildData savedPages playlistPages ps).lookup n =
      (ps.reverse.find? (fun p => p.name == n)).map
        (playlistEntry savedPages playlistPages) ∧
    (∀ kv ∈ mainBuildData savedPages playlistPages ps,
      ∃ p, ps.reverse.find? (fun p => p.name == kv.1) = some p ∧
        kv.2 = playlistEntry savedPages playlistPages p) := by
  have hnd : ((mainBuildData savedPages playlistPages ps).map Prod.fst).Nodup :=
    mainBuildData_nodup_gen savedPages playlistPages ps [] (by simp)
  have hlk : ∀ n2 : String, (mainBuildData savedPages playlistPages ps).lookup n2 =
      (ps.reverse.find? (fun p => p.name == n2)).map
        (playlistEntry savedPages playlistPages) := by
    intro n2
    rw [mainBuildData, mainBuildData_lookup_gen savedPages playlistPages ps [] n2]
    cases hf : ps.reverse.find? (fun p => p.name == n2) <;> simp [hf]
  refine ⟨hnd, hlk n, ?_⟩
  intro kv hkv
  have hl := lookup_of_mem_nodup _ kv hnd hkv
  rw [hlk kv.1] at hl
  cases hf : ps.reverse.find? (fun p => p.name == kv.1) with
  | none =>
    rw [hf] at hl
    exact absurd hl (by simp)
  | some p =>
    rw [hf] at hl
    simp only [Option.map_some', Option.some.injEq] at hl
    exact ⟨p, rfl, hl.symm⟩

/-- Concrete run of `C10_keyed_by_display_name` on two playlists that share
the name Dup: the dict holds one entry, and it is the entry of the second
(later) playlist, carrying that playlist id and its tracks. -/
theorem C10_keyed_by_display_name_witness :
    ((mainBuildData [] (fun i => [⟨[.str i], none⟩])
        [⟨"id1", "Dup", 1, []⟩, ⟨"id2", "Dup", 2, []⟩]).map Prod.fst).Nodup ∧
    (mainBuildData [] (fun i => [⟨[.str i], none⟩])
        [⟨"id1", "Dup", 1, []⟩, ⟨"id2", "Dup", 2, []⟩]).lookup "Dup" =
      ([(⟨"id2", "Dup", 2, []⟩ : SPlaylist), ⟨"id1", "Dup", 1, []⟩].find?
          (fun p => p.name == "Dup")).map
        (playlistEntry [] (fun i => [⟨[.str i], none⟩])) ∧
    ("Dup", playlistEntry [] (fun i => [⟨[.str i], none⟩]) ⟨"id2", "Dup", 2, []⟩) ∈
      mainBuildData [] (fun i => [⟨[.str i], none⟩])
        [⟨"id1", "Dup", 1, []⟩, ⟨"id2", "Dup", 2, []⟩] ∧
    (∃ p, ([(⟨"id2", "Dup", 2, []⟩ : SPlaylist), ⟨"id1", "Dup", 1, []⟩].find?
          (fun p => p.name == "Dup")) = some p ∧
      playlistEntry [] (fun i => [⟨[.str i], none⟩]) ⟨"id2", "Dup", 2, []⟩ =
        playlistEntry [] (fun i => [⟨[.str i], none⟩]) p) := by
  have h := C10_keyed_by_display_name [] (fun i => [⟨[.str i], none⟩])
    [⟨"id1", "Dup", 1, []⟩, ⟨"id2", "Dup", 2, []⟩] "Dup"
  have hmem : ("Dup", playlistEntry [] (fun i => [⟨[.str i], none⟩]) ⟨"id2", "Dup", 2, []⟩) ∈
      mainBuildData [] (fun i => [⟨[.str i], none⟩])
        [⟨"id1", "Dup", 1, []⟩, ⟨"id2", "Dup", 2, []⟩] :=
    List.mem_cons_self _ _
  exact ⟨h.1, h.2.1, hmem, h.2.2 _ hmem⟩
